import Mathlib

/-!
Shallow embedding of src/main.py (JrKraus/SSproject1), a FastAPI + SQLAlchemy
CRUD backend over two tables, users and posts.

The relational store is modelled as a `DBState`: the two tables as lists of
rows in insertion order (SQLite natural storage order) together with the next
auto-assigned primary key for each table.  Each HTTP handler becomes a pure
function; handlers that can raise `HTTPException(404)` (or crash) return
`Except ApiError`.  A mutating handler returns the response value together
with the committed state; on an error the session is closed without commit,
so no state is returned and the store is unchanged.

Where the source defines the same route several times (two `create_post`
handlers at lines 126 and 134, three `get_users` handlers at lines 87, 208 and
216), Starlette matches routes in registration order, so the first registered
handler serves the route; the later duplicates are dead code.  The embedding
therefore follows the first `create_post` (lines 126-132) and the first
`get_users` (lines 87-93).
-/

namespace SSproject

/-- Row of the `users` table (SQLAlchemy model `UserDB`, lines 16-23). -/
structure UserDB where
  id : Nat
  username : String
  is_admin : Bool
  image_url : Option String
deriving DecidableEq

/-- Row of the `posts` table (SQLAlchemy model `PostDB`, lines 25-34).
`likes` has column default 0; its SQL type is a signed integer, so it is
modelled as `Int` and non-negativity is a property to prove, not a typing
artifact. -/
structure PostDB where
  id : Nat
  title : String
  post_text : String
  likes : Int
  user_id : Nat
deriving DecidableEq

/-- Request body for user creation and full user update (Pydantic
`UserCreate`, lines 40-46): name, admin flag (default false), optional
avatar URL. -/
structure UserCreate where
  name : String
  is_admin : Bool
  image_url : Option String
deriving DecidableEq

/-- Request body for post creation and full post update (Pydantic
`PostCreate`, lines 53-59): title, body text, owning user id.  It has no
likes field. -/
structure PostCreate where
  title : String
  post_text : String
  user_id : Nat
deriving DecidableEq

/-- Response shape for users (Pydantic `User`, lines 48-51). -/
structure User where
  id : Nat
  name : String
  is_admin : Bool
  image_url : Option String
deriving DecidableEq

/-- Response shape for posts (Pydantic `Post`, lines 61-65). -/
structure Post where
  id : Nat
  title : String
  post_text : String
  user_id : Nat
  likes : Int
deriving DecidableEq

/-- The persistent store: both tables plus the next auto-assigned primary
key of each (SQLite integer primary keys start at 1). -/
structure DBState where
  users : List UserDB
  posts : List PostDB
  nextUserId : Nat
  nextPostId : Nat
deriving DecidableEq

/-- The store created by `Base.metadata.create_all` on first startup:
both tables empty. -/
def initState : DBState := ⟨[], [], 1, 1⟩

/-- Errors a handler can produce: `httpNotFound` is
`HTTPException(status_code=404, detail=...)`; `attrError` is a Python
`AttributeError` raised when an undefined attribute of a Pydantic model is
read (it propagates as a generic 500 server error). -/
inductive ApiError where
  | httpNotFound (detail : String)
  | attrError (objType attr : String)
deriving DecidableEq

/-- State reached after a fallible mutating handler: the committed state on
success; on an error the session is closed without commit, so the store is
left as it was. -/
def stepState {α : Type} (r : Except ApiError (α × DBState)) (db : DBState) : DBState :=
  match r with
  | .ok (_, db') => db'
  | .error _ => db

/-- Whether the outcome is the 404 NotFound error. -/
def isNotFound {α : Type} : Except ApiError α → Bool
  | .error (.httpNotFound _) => true
  | _ => false

/-- Containment of `needle` in a list as a contiguous run. -/
def listIsInfixOf [BEq α] (needle : List α) : List α → Bool
  | [] => needle.isEmpty
  | a :: as => needle.isPrefixOf (a :: as) || listIsInfixOf needle as

/-- Embedding of the SQLAlchemy column operator `.contains(sub)`
(`LIKE '%sub%'`): substring containment, modelled case-sensitively; any case
folding the storage engine applies is a configuration of that engine. -/
def strContains (s sub : String) : Bool := listIsInfixOf sub.data s.data

/-- Mutation of the first row satisfying `p` (the ORM mutates in place the
single object produced by `.filter(...).first()`). -/
def updateFirst (p : α → Bool) (f : α → α) : List α → List α
  | [] => []
  | x :: xs => if p x then f x :: xs else x :: updateFirst p f xs

/-- Embedding of `db.query(UserDB).filter(UserDB.id == user_id).first()`. -/
def findUser (user_id : Nat) (db : DBState) : Option UserDB :=
  db.users.find? (fun u => u.id == user_id)

/-- Embedding of `db.query(PostDB).filter(PostDB.id == post_id).first()`. -/
def findPost (post_id : Nat) (db : DBState) : Option PostDB :=
  db.posts.find? (fun p => p.id == post_id)

/-- Serialization `User(id=u.id, name=u.username, is_admin=u.is_admin,
image_url=u.image_url)` used by every user handler. -/
def toUser (u : UserDB) : User := ⟨u.id, u.username, u.is_admin, u.image_url⟩

/-- Serialization `Post(id=p.id, title=p.title, post_text=p.post_text,
user_id=p.user_id, likes=p.likes)` used by the post handlers. -/
def toPost (p : PostDB) : Post := ⟨p.id, p.title, p.post_text, p.user_id, p.likes⟩

/-- POST /users/ (lines 79-85): insert a fresh row with the submitted
fields and an auto-assigned id, commit, return the created record. -/
def create_user (user : UserCreate) (db : DBState) : User × DBState :=
  let db_user : UserDB := ⟨db.nextUserId, user.name, user.is_admin, user.image_url⟩
  (toUser db_user,
   { db with users := db.users ++ [db_user], nextUserId := db.nextUserId + 1 })

/-- GET /users/ (lines 87-93): optional substring filter on username;
`if name:` applies the filter only when the parameter is present and
non-empty (Python string truthiness). -/
def get_users (name : Option String) (db : DBState) : List User :=
  match name with
  | some n =>
      if n.isEmpty then db.users.map toUser
      else (db.users.filter (fun u => strContains u.username n)).map toUser
  | none => db.users.map toUser

/-- GET /users/\x7buser_id\x7d (lines 95-100): the record, or 404. -/
def get_user (user_id : Nat) (db : DBState) : Except ApiError User :=
  match findUser user_id db with
  | none => .error (.httpNotFound "User not found")
  | some u => .ok (toUser u)

/-- PUT /users/\x7buser_id\x7d (lines 102-112): replace username, is_admin,
image_url of an existing row, commit; 404 when absent. -/
def update_user (user_id : Nat) (user : UserCreate) (db : DBState) :
    Except ApiError (User × DBState) :=
  match findUser user_id db with
  | none => .error (.httpNotFound "User not found")
  | some u =>
      let u' : UserDB := { u with username := user.name, is_admin := user.is_admin,
                                  image_url := user.image_url }
      .ok (toUser u',
           { db with users := (updateFirst (fun v => v.id == user_id)
               (fun v => { v with username := user.name, is_admin := user.is_admin,
                                  image_url := user.image_url }) db.users) })

/-- PATCH /users/\x7buser_id\x7d/name (lines 114-122): replace only the
username of an existing row, commit; 404 when absent. -/
def patch_user_name (user_id : Nat) (name : String) (db : DBState) :
    Except ApiError (User × DBState) :=
  match findUser user_id db with
  | none => .error (.httpNotFound "User not found")
  | some u =>
      .ok (toUser { u with username := name },
           { db with users := (updateFirst (fun v => v.id == user_id)
               (fun v => { v with username := name }) db.users) })

/-- POST /posts/ (first, live, handler, lines 126-132):
`PostDB(**post.dict())` inserts title, post_text and user_id from the body;
the likes column takes its default 0 at commit; the id is auto-assigned. -/
def create_post (post : PostCreate) (db : DBState) : Post × DBState :=
  let db_post : PostDB := ⟨db.nextPostId, post.title, post.post_text, 0, post.user_id⟩
  (toPost db_post,
   { db with posts := db.posts ++ [db_post], nextPostId := db.nextPostId + 1 })

/-- GET /posts/ (lines 142-148): optional substring filter on title, with
the same truthiness test as for users. -/
def get_posts (title : Option String) (db : DBState) : List Post :=
  match title with
  | some t =>
      if t.isEmpty then db.posts.map toPost
      else (db.posts.filter (fun p => strContains p.title t)).map toPost
  | none => db.posts.map toPost

/-- GET /posts/\x7bpost_id\x7d (lines 150-155): the record, or 404. -/
def get_post (post_id : Nat) (db : DBState) : Except ApiError Post :=
  match findPost post_id db with
  | none => .error (.httpNotFound "Post not found")
  | some p => .ok (toPost p)

/-- PUT /posts/\x7bpost_id\x7d (lines 157-167).  When the row is absent the
handler raises 404.  When the row exists, line 162 assigns the title in
memory, but line 163 reads `post.text` and `PostCreate` has no field named
`text`, so Python raises `AttributeError` before `db.commit()` is reached;
the session is closed without commit and the in-memory change is discarded,
leaving the store unchanged.  So the handler never succeeds. -/
def update_post (post_id : Nat) (post : PostCreate) (db : DBState) :
    Except ApiError (Post × DBState) :=
  match findPost post_id db with
  | none => .error (.httpNotFound "Post not found")
  | some _ => .error (.attrError "PostCreate" "text")

/-- PATCH /posts/\x7bpost_id\x7d/text (lines 169-177): replace only the
post_text of an existing row, commit; 404 when absent. -/
def patch_post_text (post_id : Nat) (text : String) (db : DBState) :
    Except ApiError (Post × DBState) :=
  match findPost post_id db with
  | none => .error (.httpNotFound "Post not found")
  | some p =>
      .ok (toPost { p with post_text := text },
           { db with posts := (updateFirst (fun q => q.id == post_id)
               (fun q => { q with post_text := text }) db.posts) })

/-- PATCH /posts/\x7bpost_id\x7d/likes/increment (lines 179-187):
`db_post.likes += 1`, commit; 404 when absent. -/
def increment_post_likes (post_id : Nat) (db : DBState) :
    Except ApiError (Post × DBState) :=
  match findPost post_id db with
  | none => .error (.httpNotFound "Post not found")
  | some p =>
      .ok (toPost { p with likes := p.likes + 1 },
           { db with posts := (updateFirst (fun q => q.id == post_id)
               (fun q => { q with likes := q.likes + 1 }) db.posts) })

/-- PATCH /posts/\x7bpost_id\x7d/likes/decrement (lines 189-197):
`db_post.likes = max(0, db_post.likes - 1)`, commit; 404 when absent. -/
def decrement_post_likes (post_id : Nat) (db : DBState) :
    Except ApiError (Post × DBState) :=
  match findPost post_id db with
  | none => .error (.httpNotFound "Post not found")
  | some p =>
      .ok (toPost { p with likes := max 0 (p.likes - 1) },
           { db with posts := (updateFirst (fun q => q.id == post_id)
               (fun q => { q with likes := max 0 (q.likes - 1) }) db.posts) })

/-- DELETE /posts/\x7bpost_id\x7d (lines 199-206): delete the row found by
primary key, commit, and return the deleted object, whose loaded attribute
values (its pre-deletion state) survive the commit; 404 when absent. -/
def delete_post (post_id : Nat) (db : DBState) :
    Except ApiError (Post × DBState) :=
  match findPost post_id db with
  | none => .error (.httpNotFound "Post not found")
  | some p =>
      .ok (toPost p,
           { db with posts := db.posts.eraseP (fun q => q.id == post_id) })

/-- One increment request followed by whatever it did to the store. -/
def incStep (post_id : Nat) (db : DBState) : DBState :=
  stepState (increment_post_likes post_id db) db

/-- One decrement request followed by whatever it did to the store. -/
def decStep (post_id : Nat) (db : DBState) : DBState :=
  stepState (decrement_post_likes post_id db) db

/-- States the exposed API can produce from the freshly created store: the
initial empty store, closed under every mutating handler (read handlers do
not change the store). -/
inductive Reachable : DBState → Prop
  | init : Reachable initState
  | createUser (u : UserCreate) (db : DBState) :
      Reachable db → Reachable (create_user u db).2
  | updateUser (uid : Nat) (u : UserCreate) (db : DBState) :
      Reachable db → Reachable (stepState (update_user uid u db) db)
  | patchUserName (uid : Nat) (n : String) (db : DBState) :
      Reachable db → Reachable (stepState (patch_user_name uid n db) db)
  | createPost (b : PostCreate) (db : DBState) :
      Reachable db → Reachable (create_post b db).2
  | updatePost (pid : Nat) (b : PostCreate) (db : DBState) :
      Reachable db → Reachable (stepState (update_post pid b db) db)
  | patchPostText (pid : Nat) (t : String) (db : DBState) :
      Reachable db → Reachable (stepState (patch_post_text pid t db) db)
  | incrementLikes (pid : Nat) (db : DBState) :
      Reachable db → Reachable (stepState (increment_post_likes pid db) db)
  | decrementLikes (pid : Nat) (db : DBState) :
      Reachable db → Reachable (stepState (decrement_post_likes pid db) db)
  | deletePost (pid : Nat) (db : DBState) :
      Reachable db → Reachable (stepState (delete_post pid db) db)

/-! Helper lemmas about the embedding's list primitives. -/

theorem updateFirst_length {α : Type} (p : α → Bool) (f : α → α) (l : List α) :
    (updateFirst p f l).length = l.length := by
  induction l with
  | nil => rfl
  | cons x xs ih => by_cases h : p x = true <;> simp [updateFirst, h, ih]

theorem mem_updateFirst {α : Type} {p : α → Bool} {f : α → α} {l : List α} {y : α}
    (hy : y ∈ updateFirst p f l) : y ∈ l ∨ ∃ x ∈ l, y = f x := by
  induction l with
  | nil => simp [updateFirst] at hy
  | cons x xs ih =>
      by_cases h : p x = true
      · simp [updateFirst, h] at hy
        rcases hy with h1 | h1
        · exact Or.inr ⟨x, by simp, h1⟩
        · exact Or.inl (by simp [h1])
      · simp [updateFirst, h] at hy
        rcases hy with h1 | h1
        · exact Or.inl (by simp [h1])
        · rcases ih h1 with h2 | ⟨x2, hx2, hy2⟩
          · exact Or.inl (by simp [h2])
          · exact Or.inr ⟨x2, by simp [hx2], hy2⟩

theorem find?_updateFirst {α : Type} {p : α → Bool} (f : α → α) {l : List α} {x : α}
    (h : l.find? p = some x) (hf : p (f x) = true) :
    (updateFirst p f l).find? p = some (f x) := by
  induction l with
  | nil => simp at h
  | cons a as ih =>
      by_cases ha : p a = true
      · rw [List.find?_cons_of_pos _ ha] at h
        injection h with h
        subst h
        simp only [updateFirst, ha, if_pos]
        exact List.find?_cons_of_pos _ hf
      · rw [List.find?_cons_of_neg _ ha] at h
        simp only [updateFirst, ha, if_neg, Bool.false_eq_true, not_false_iff]
        rw [List.find?_cons_of_neg _ ha]
        exact ih h

theorem updateFirst_get {α : Type} (p : α → Bool) (f : α → α) (l : List α) (i : Nat)
    (h1 : i < l.length) (h2 : i < (updateFirst p f l).length) :
    (updateFirst p f l).get ⟨i, h2⟩ = l.get ⟨i, h1⟩
    ∨ ((updateFirst p f l).get ⟨i, h2⟩ = f (l.get ⟨i, h1⟩)
        ∧ p (l.get ⟨i, h1⟩) = true) := by
  induction l generalizing i with
  | nil => simp at h1
  | cons a as ih =>
      by_cases ha : p a = true
      · cases i with
        | zero =>
            right
            constructor
            · show (updateFirst p f (a :: as)).get ⟨0, h2⟩ = f ((a :: as).get ⟨0, h1⟩)
              simp [updateFirst, ha]
            · simpa using ha
        | succ j =>
            left
            show (updateFirst p f (a :: as)).get ⟨j + 1, h2⟩ = (a :: as).get ⟨j + 1, h1⟩
            simp [updateFirst, ha, List.get_cons_succ]
      · cases i with
        | zero =>
            left
            simp [updateFirst, ha]
        | succ j =>
            have h1' : j < as.length := by simpa using h1
            have h2' : j < (updateFirst p f as).length := by
              rw [updateFirst_length]; exact h1'
            have := ih j h1' h2'
            simpa [updateFirst, ha, List.get_cons_succ] using this

theorem updateFirst_get? {α : Type} (p : α → Bool) (f : α → α) (l : List α) (i : Nat) :
    (updateFirst p f l).get? i = l.get? i
    ∨ ∃ x, l.get? i = some x ∧ p x = true
        ∧ (updateFirst p f l).get? i = some (f x) := by
  induction l generalizing i with
  | nil => left; rfl
  | cons a as ih =>
      by_cases ha : p a = true
      · cases i with
        | zero => right; exact ⟨a, rfl, ha, by simp [updateFirst, ha]⟩
        | succ j => left; simp [updateFirst, ha]
      · cases i with
        | zero => left; simp [updateFirst, ha]
        | succ j => simpa [updateFirst, ha] using ih j

theorem listIsInfixOf_nil {α : Type} [BEq α] (l : List α) :
    listIsInfixOf ([] : List α) l = true := by
  cases l <;> simp [listIsInfixOf, List.isPrefixOf, List.isEmpty]

theorem strContains_of_isEmpty (s n : String) (h : n.isEmpty = true) :
    strContains s n = true := by
  rw [(String.isEmpty_iff n).mp h]
  exact listIsInfixOf_nil s.data

theorem find?_eraseP_eq_none {α : Type} (key : α → Nat) (k : Nat) {l : List α}
    (hnd : (l.map key).Nodup) :
    (l.eraseP (fun x => key x == k)).find? (fun x => key x == k) = none := by
  induction l with
  | nil => rfl
  | cons a as ih =>
      rw [List.map_cons, List.nodup_cons] at hnd
      obtain ⟨hna, hnd'⟩ := hnd
      by_cases ha : (key a == k) = true
      · rw [List.eraseP_cons_of_pos (p := fun x => key x == k) ha, List.find?_eq_none]
        intro x hx
        simp only [beq_iff_eq]
        intro hxk
        apply hna
        rw [List.mem_map]
        refine ⟨x, hx, ?_⟩
        rw [hxk, ← beq_iff_eq.mp ha]
      · rw [List.eraseP_cons_of_neg (p := fun x => key x == k) ha,
            List.find?_cons_of_neg (p := fun x => key x == k) _ ha]
        exact ih hnd'

theorem find?_append_of_none {α : Type} {p : α → Bool} {l1 : List α} (l2 : List α)
    (h : l1.find? p = none) : (l1 ++ l2).find? p = l2.find? p := by
  rw [List.find?_append, h, Option.none_or]

theorem findPost_incStep {db : DBState} {pid : Nat} {p : PostDB}
    (h : findPost pid db = some p) :
    findPost pid (incStep pid db) = some { p with likes := p.likes + 1 } := by
  have h' : db.posts.find? (fun q => q.id == pid) = some p := h
  have hid : (p.id == pid) = true := by
    have h2 := List.find?_some h'
    simpa using h2
  simp only [incStep, increment_post_likes, findPost, h', stepState]
  exact find?_updateFirst (fun q => { q with likes := q.likes + 1 }) h'
    (by simpa using hid)

theorem findPost_decStep {db : DBState} {pid : Nat} {p : PostDB}
    (h : findPost pid db = some p) :
    findPost pid (decStep pid db) = some { p with likes := max 0 (p.likes - 1) } := by
  have h' : db.posts.find? (fun q => q.id == pid) = some p := h
  have hid : (p.id == pid) = true := by
    have h2 := List.find?_some h'
    simpa using h2
  simp only [decStep, decrement_post_likes, findPost, h', stepState]
  exact find?_updateFirst (fun q => { q with likes := max 0 (q.likes - 1) }) h'
    (by simpa using hid)

theorem findPost_incIter (pid : Nat) (N : Nat) :
    ∀ (db : DBState) (p : PostDB), findPost pid db = some p →
      findPost pid ((incStep pid)^[N] db) = some { p with likes := p.likes + (N : Int) } := by
  induction N with
  | zero =>
      intro db p h
      simpa using h
  | succ n ih =>
      intro db p h
      rw [Function.iterate_succ_apply]
      have h2 := ih _ _ (findPost_incStep h)
      have h3 : p.likes + 1 + (n : Int) = p.likes + ((n + 1 : Nat) : Int) := by
        push_cast
        ring
      rw [h2, h3]

theorem findPost_decIter (pid : Nat) (M : Nat) :
    ∀ (db : DBState) (p : PostDB), findPost pid db = some p → (M : Int) ≤ p.likes →
      findPost pid ((decStep pid)^[M] db) = some { p with likes := p.likes - (M : Int) } := by
  induction M with
  | zero =>
      intro db p h _
      simpa using h
  | succ n ih =>
      intro db p h hle
      rw [Function.iterate_succ_apply]
      have h1 := findPost_decStep h
      have hone : (1 : Int) ≤ p.likes := by
        have : ((n + 1 : Nat) : Int) = (n : Int) + 1 := by push_cast; ring
        rw [this] at hle
        omega
      have hmax : max 0 (p.likes - 1) = p.likes - 1 := by omega
      rw [hmax] at h1
      have h2 := ih _ _ h1 (by
        show (n : Int) ≤ p.likes - 1
        have : ((n + 1 : Nat) : Int) = (n : Int) + 1 := by push_cast; ring
        rw [this] at hle
        omega)
      rw [h2]
      have h3 : p.likes - 1 - (n : Int) = p.likes - ((n + 1 : Nat) : Int) := by
        push_cast
        ring
      rw [h3]

/-- C1: every store state reachable through the exposed mutating handlers
(create, full update, text patch, like increment, like decrement, delete,
plus the user handlers) keeps the like count of every stored post
non-negative: creation initializes likes to 0 and decrement clamps at 0. -/
theorem reachable_likes_nonneg (db : DBState) (h : Reachable db) :
    ∀ p ∈ db.posts, 0 ≤ p.likes := by
  induction h with
  | init =>
      intro p hp
      simp [initState] at hp
  | createUser u db _ ih =>
      intro q hq
      exact ih q hq
  | updateUser uid u db _ ih =>
      intro q hq
      cases hf : findUser uid db <;>
        simp only [update_user, hf, stepState] at hq <;> exact ih q hq
  | patchUserName uid n db _ ih =>
      intro q hq
      cases hf : findUser uid db <;>
        simp only [patch_user_name, hf, stepState] at hq <;> exact ih q hq
  | createPost b db _ ih =>
      intro q hq
      simp only [create_post, List.mem_append, List.mem_singleton] at hq
      rcases hq with hq | hq
      · exact ih q hq
      · subst hq
        show (0 : Int) ≤ 0
        omega
  | updatePost pid b db _ ih =>
      intro q hq
      cases hf : findPost pid db <;>
        simp only [update_post, hf, stepState] at hq <;> exact ih q hq
  | patchPostText pid t db _ ih =>
      intro q hq
      cases hf : findPost pid db with
      | none =>
          simp only [patch_post_text, hf, stepState] at hq
          exact ih q hq
      | some p =>
          simp only [patch_post_text, hf, stepState] at hq
          rcases mem_updateFirst hq with h1 | ⟨x, hx, rfl⟩
          · exact ih q h1
          · exact ih x hx
  | incrementLikes pid db _ ih =>
      intro q hq
      cases hf : findPost pid db with
      | none =>
          simp only [increment_post_likes, hf, stepState] at hq
          exact ih q hq
      | some p =>
          simp only [increment_post_likes, hf, stepState] at hq
          rcases mem_updateFirst hq with h1 | ⟨x, hx, rfl⟩
          · exact ih q h1
          · show (0 : Int) ≤ x.likes + 1
            have := ih x hx
            omega
  | decrementLikes pid db _ ih =>
      intro q hq
      cases hf : findPost pid db with
      | none =>
          simp only [decrement_post_likes, hf, stepState] at hq
          exact ih q hq
      | some p =>
          simp only [decrement_post_likes, hf, stepState] at hq
          rcases mem_updateFirst hq with h1 | ⟨x, hx, rfl⟩
          · exact ih q h1
          · show (0 : Int) ≤ max 0 (x.likes - 1)
            exact le_max_left _ _
  | deletePost pid db _ ih =>
      intro q hq
      cases hf : findPost pid db with
      | none =>
          simp only [delete_post, hf, stepState] at hq
          exact ih q hq
      | some p =>
          simp only [delete_post, hf, stepState] at hq
          exact ih q (List.mem_of_mem_eraseP hq)

/-- Witness for C1 at a concrete reachable store: create a post in the fresh
store and decrement its likes once; the stored post still has likes 0 and
the invariant instantiates to it. -/
theorem reachable_likes_nonneg_witness :
    (0 : Int) ≤ (PostDB.mk 1 "t" "b" 0 1).likes :=
  reachable_likes_nonneg
    (stepState (decrement_post_likes 1 (create_post ⟨"t", "b", 1⟩ initState).2)
      (create_post ⟨"t", "b", 1⟩ initState).2)
    (Reachable.decrementLikes 1 (create_post ⟨"t", "b", 1⟩ initState).2
      (Reachable.createPost ⟨"t", "b", 1⟩ initState Reachable.init))
    (PostDB.mk 1 "t" "b" 0 1) (by decide)

/-- C2: the spec says PUT /posts/\x7bid\x7d replaces title, body text and
owning user id of an existing post and returns the updated post, failing
with NotFound only for an absent id.  The code contradicts this: for an
existing id, line 163 reads `post.text`, a field `PostCreate` does not have,
so the handler raises AttributeError (a 500) and commits nothing.  This
theorem evaluates the handler at a concrete failing input: a store holding
post id 1 and a well-formed body. -/
theorem update_post_attr_error_at_input :
    update_post 1 ⟨"new title", "new text", 1⟩ ⟨[], [⟨1, "t", "b", 0, 1⟩], 1, 2⟩
      = .error (.attrError "PostCreate" "text") := rfl

/-- C3: for every existing post, the decrement handler returns the post with
like count max 0 (likes - 1) and stores that count; in particular a post
whose like count is 0 keeps like count 0, never negative. -/
theorem decrement_post_likes_spec (db : DBState) (pid : Nat) (p : PostDB)
    (h : findPost pid db = some p) :
    decrement_post_likes pid db
      = .ok (toPost { p with likes := max 0 (p.likes - 1) },
             stepState (decrement_post_likes pid db) db)
    ∧ findPost pid (stepState (decrement_post_likes pid db) db)
      = some { p with likes := max 0 (p.likes - 1) }
    ∧ (p.likes = 0 → findPost pid (stepState (decrement_post_likes pid db) db)
        = some { p with likes := 0 }) := by
  have h' : db.posts.find? (fun q => q.id == pid) = some p := h
  have h2 := findPost_decStep h
  refine ⟨?_, h2, ?_⟩
  · simp only [decrement_post_likes, findPost, h', stepState]
  · intro h0
    have h3 : max 0 (p.likes - 1) = 0 := by rw [h0]; decide
    rw [h3] at h2
    exact h2

/-- Witness for C3 at a store whose single post has like count 0: after one
decrement the stored like count is still 0. -/
theorem decrement_post_likes_spec_witness :
    findPost 1 (stepState (decrement_post_likes 1 ⟨[], [⟨1, "t", "b", 0, 1⟩], 1, 2⟩)
        ⟨[], [⟨1, "t", "b", 0, 1⟩], 1, 2⟩)
      = some ⟨1, "t", "b", 0, 1⟩ :=
  (decrement_post_likes_spec ⟨[], [⟨1, "t", "b", 0, 1⟩], 1, 2⟩ 1 ⟨1, "t", "b", 0, 1⟩
    rfl).2.2 rfl

/-- C4: starting from a post whose like count is 0, N increment requests
followed by M decrement requests with M ≤ N leave its stored like count at
exactly N - M. -/
theorem inc_then_dec_likes (db : DBState) (pid : Nat) (p : PostDB) (N M : Nat)
    (h : findPost pid db = some p) (h0 : p.likes = 0) (hMN : M ≤ N) :
    findPost pid ((decStep pid)^[M] ((incStep pid)^[N] db))
      = some { p with likes := (N : Int) - (M : Int) } := by
  have h1 := findPost_incIter pid N db p h
  have hlik : ({ p with likes := p.likes + (N : Int) } : PostDB).likes = (N : Int) := by
    simp [h0]
  have h2 := findPost_decIter pid M _ _ h1 (by rw [hlik]; exact_mod_cast hMN)
  rw [h2]
  have h4 : p.likes + (N : Int) - (M : Int) = (N : Int) - (M : Int) := by
    rw [h0]
    ring
  show some { p with likes := p.likes + (N : Int) - (M : Int) }
    = some { p with likes := (N : Int) - (M : Int) }
  rw [h4]

/-- Witness for C4: two increments then one decrement on a fresh post yield
stored like count 2 - 1. -/
theorem inc_then_dec_likes_witness :
    findPost 1 ((decStep 1)^[1] ((incStep 1)^[2] ⟨[], [⟨1, "t", "b", 0, 1⟩], 1, 2⟩))
      = some ⟨1, "t", "b", ((2 : Nat) : Int) - ((1 : Nat) : Int), 1⟩ :=
  inc_then_dec_likes ⟨[], [⟨1, "t", "b", 0, 1⟩], 1, 2⟩ 1 ⟨1, "t", "b", 0, 1⟩ 2 1 rfl rfl
    (by decide)

/-- C5: deleting an existing post removes exactly that row and returns its
pre-deletion state, and a subsequent get by that id answers NotFound; the
row ids are pairwise distinct because id is the primary key.  Deleting an
absent id answers NotFound. -/
theorem delete_post_spec (db : DBState) (pid : Nat) (p : PostDB)
    (hnd : (db.posts.map PostDB.id).Nodup) (h : findPost pid db = some p) :
    delete_post pid db
      = .ok (toPost p, { db with posts := db.posts.eraseP (fun q => q.id == pid) })
    ∧ get_post pid { db with posts := db.posts.eraseP (fun q => q.id == pid) }
      = .error (.httpNotFound "Post not found")
    ∧ ∀ db2 : DBState, findPost pid db2 = none →
        delete_post pid db2 = .error (.httpNotFound "Post not found") := by
  have h' : db.posts.find? (fun q => q.id == pid) = some p := h
  refine ⟨?_, ?_, ?_⟩
  · simp only [delete_post, findPost, h']
  · have hn := find?_eraseP_eq_none PostDB.id pid hnd
    simp only [get_post, findPost, hn]
  · intro db2 h2
    simp only [delete_post, h2]

/-- Witness for C5: deleting the single stored post makes get by its id
answer NotFound. -/
theorem delete_post_spec_witness :
    get_post 1 { users := [], posts := List.eraseP (fun q => q.id == 1) [⟨1, "t", "b", 0, 1⟩],
                 nextUserId := 1, nextPostId := 2 }
      = .error (.httpNotFound "Post not found") :=
  (delete_post_spec ⟨[], [⟨1, "t", "b", 0, 1⟩], 1, 2⟩ 1 ⟨1, "t", "b", 0, 1⟩ (by decide)
    rfl).2.1

/-- C6: every lookup-by-id handler on users or posts answers the NotFound
error (HTTP 404) exactly when no row has the requested id, and when the row
is absent the mutating handlers leave the store unchanged (each request is a
single atomic commit with no partial effect). -/
theorem notFound_iff_absent (db : DBState) (uid pid : Nat) (ub : UserCreate)
    (pb : PostCreate) (nm tx : String) :
    (isNotFound (get_user uid db) = (findUser uid db).isNone
      ∧ isNotFound (update_user uid ub db) = (findUser uid db).isNone
      ∧ isNotFound (patch_user_name uid nm db) = (findUser uid db).isNone
      ∧ isNotFound (get_post pid db) = (findPost pid db).isNone
      ∧ isNotFound (update_post pid pb db) = (findPost pid db).isNone
      ∧ isNotFound (patch_post_text pid tx db) = (findPost pid db).isNone
      ∧ isNotFound (increment_post_likes pid db) = (findPost pid db).isNone
      ∧ isNotFound (decrement_post_likes pid db) = (findPost pid db).isNone
      ∧ isNotFound (delete_post pid db) = (findPost pid db).isNone)
    ∧ ((findUser uid db).isNone = true →
        stepState (update_user uid ub db) db = db
        ∧ stepState (patch_user_name uid nm db) db = db)
    ∧ ((findPost pid db).isNone = true →
        stepState (update_post pid pb db) db = db
        ∧ stepState (patch_post_text pid tx db) db = db
        ∧ stepState (increment_post_likes pid db) db = db
        ∧ stepState (decrement_post_likes pid db) db = db
        ∧ stepState (delete_post pid db) db = db) := by
  cases hu : findUser uid db <;> cases hp : findPost pid db <;>
    simp [get_user, update_user, patch_user_name, get_post, update_post,
      patch_post_text, increment_post_likes, decrement_post_likes, delete_post,
      isNotFound, stepState, hu, hp]

/-- Witness for C6 on the empty store: getting user 1 answers NotFound, and
an increment aimed at the absent post 1 leaves the store unchanged. -/
theorem notFound_iff_absent_witness :
    isNotFound (get_user 1 initState) = true
    ∧ stepState (increment_post_likes 1 initState) initState = initState := by
  have h := notFound_iff_absent initState 1 1 ⟨"a", false, none⟩ ⟨"t", "b", 1⟩ "n" "x"
  refine ⟨?_, ?_⟩
  · rw [h.1.1]
    rfl
  · exact (h.2.2 rfl).2.2.1

/-- C7: listing users with a name filter returns exactly the stored users
whose username contains the filter as a substring, listing posts with a
title filter returns exactly the stored posts whose title contains it, and
with no filter supplied the whole table is returned.  The handlers skip the
query for an empty filter string, which coincides with filtering by the
empty substring since every string contains it. -/
theorem list_endpoints_filter_spec (db : DBState) (n t : String) :
    get_users (some n) db
      = (db.users.filter (fun u => strContains u.username n)).map toUser
    ∧ get_users none db = db.users.map toUser
    ∧ get_posts (some t) db
      = (db.posts.filter (fun p => strContains p.title t)).map toPost
    ∧ get_posts none db = db.posts.map toPost := by
  refine ⟨?_, rfl, ?_, rfl⟩
  · by_cases hn : n.isEmpty = true
    · have hfil : db.users.filter (fun u => strContains u.username n) = db.users := by
        rw [List.filter_eq_self]
        intro v _
        exact strContains_of_isEmpty v.username n hn
      rw [hfil]
      simp [get_users, hn]
    · simp [get_users, hn]
  · by_cases ht : t.isEmpty = true
    · have hfil : db.posts.filter (fun q => strContains q.title t) = db.posts := by
        rw [List.filter_eq_self]
        intro q _
        exact strContains_of_isEmpty q.title t ht
      rw [hfil]
      simp [get_posts, ht]
    · simp [get_posts, ht]

/-- C8: patch-name changes only the username of the targeted user row and
patch-text changes only the post_text of the targeted post row; every other
field of the patched row, every row with a different id, the other table and
the id counters keep their prior values. -/
theorem patch_targets_single_field (db : DBState) (uid pid : Nat) (nm tx : String)
    (u : UserDB) (p : PostDB) (hu : findUser uid db = some u)
    (hp : findPost pid db = some p) :
    patch_user_name uid nm db
      = .ok (toUser { u with username := nm }, stepState (patch_user_name uid nm db) db)
    ∧ (stepState (patch_user_name uid nm db) db).posts = db.posts
    ∧ (stepState (patch_user_name uid nm db) db).nextUserId = db.nextUserId
    ∧ (stepState (patch_user_name uid nm db) db).nextPostId = db.nextPostId
    ∧ (stepState (patch_user_name uid nm db) db).users.length = db.users.length
    ∧ (∀ i : Nat,
        ((stepState (patch_user_name uid nm db) db).users.get? i).map UserDB.id
            = (db.users.get? i).map UserDB.id
        ∧ ((stepState (patch_user_name uid nm db) db).users.get? i).map UserDB.is_admin
            = (db.users.get? i).map UserDB.is_admin
        ∧ ((stepState (patch_user_name uid nm db) db).users.get? i).map UserDB.image_url
            = (db.users.get? i).map UserDB.image_url
        ∧ ∀ v, db.users.get? i = some v → v.id ≠ uid →
            (stepState (patch_user_name uid nm db) db).users.get? i = some v)
    ∧ patch_post_text pid tx db
      = .ok (toPost { p with post_text := tx }, stepState (patch_post_text pid tx db) db)
    ∧ (stepState (patch_post_text pid tx db) db).users = db.users
    ∧ (stepState (patch_post_text pid tx db) db).nextUserId = db.nextUserId
    ∧ (stepState (patch_post_text pid tx db) db).nextPostId = db.nextPostId
    ∧ (stepState (patch_post_text pid tx db) db).posts.length = db.posts.length
    ∧ (∀ i : Nat,
        ((stepState (patch_post_text pid tx db) db).posts.get? i).map PostDB.id
            = (db.posts.get? i).map PostDB.id
        ∧ ((stepState (patch_post_text pid tx db) db).posts.get? i).map PostDB.title
            = (db.posts.get? i).map PostDB.title
        ∧ ((stepState (patch_post_text pid tx db) db).posts.get? i).map PostDB.likes
            = (db.posts.get? i).map PostDB.likes
        ∧ ((stepState (patch_post_text pid tx db) db).posts.get? i).map PostDB.user_id
            = (db.posts.get? i).map PostDB.user_id
        ∧ ∀ q, db.posts.get? i = some q → q.id ≠ pid →
            (stepState (patch_post_text pid tx db) db).posts.get? i = some q) := by
  have hu' : db.users.find? (fun v => v.id == uid) = some u := hu
  have hp' : db.posts.find? (fun q => q.id == pid) = some p := hp
  have hU : stepState (patch_user_name uid nm db) db
      = { db with users := (updateFirst (fun v => v.id == uid)
            (fun v => { v with username := nm }) db.users) } := by
    simp only [patch_user_name, findUser, hu', stepState]
  have hP : stepState (patch_post_text pid tx db) db
      = { db with posts := (updateFirst (fun q => q.id == pid)
            (fun q => { q with post_text := tx }) db.posts) } := by
    simp only [patch_post_text, findPost, hp', stepState]
  refine ⟨?_, ?_, ?_, ?_, ?_, ?_, ?_, ?_, ?_, ?_, ?_, ?_⟩
  · simp only [patch_user_name, findUser, hu', stepState]
  · rw [hU]
  · rw [hU]
  · rw [hU]
  · rw [hU]
    exact updateFirst_length _ _ _
  · intro i
    rw [hU]
    rcases updateFirst_get? (fun v => v.id == uid) (fun v => { v with username := nm })
        db.users i with hcase | ⟨x, hx, hmatch, hcase⟩
    · show ((updateFirst _ _ db.users).get? i).map UserDB.id = _ ∧ _
      rw [hcase]
      exact ⟨rfl, rfl, rfl, fun v hv _ => hv⟩
    · show ((updateFirst _ _ db.users).get? i).map UserDB.id = _ ∧ _
      rw [hcase, hx]
      refine ⟨rfl, rfl, rfl, fun v hv hne => ?_⟩
      injection hv with hv
      subst hv
      exact absurd (by simpa using hmatch) hne
  · simp only [patch_post_text, findPost, hp', stepState]
  · rw [hP]
  · rw [hP]
  · rw [hP]
  · rw [hP]
    exact updateFirst_length _ _ _
  · intro i
    rw [hP]
    rcases updateFirst_get? (fun q => q.id == pid) (fun q => { q with post_text := tx })
        db.posts i with hcase | ⟨x, hx, hmatch, hcase⟩
    · show ((updateFirst _ _ db.posts).get? i).map PostDB.id = _ ∧ _
      rw [hcase]
      exact ⟨rfl, rfl, rfl, rfl, fun q hq _ => hq⟩
    · show ((updateFirst _ _ db.posts).get? i).map PostDB.id = _ ∧ _
      rw [hcase, hx]
      refine ⟨rfl, rfl, rfl, rfl, fun q hq hne => ?_⟩
      injection hq with hq
      subst hq
      exact absurd (by simpa using hmatch) hne

/-- Witness for C8 on a store with one user and one post: patching the user
name leaves the posts table unchanged and patching the post text leaves the
users table unchanged. -/
theorem patch_targets_single_field_witness :
    (stepState (patch_user_name 1 "bob"
        ⟨[⟨1, "alice", false, none⟩], [⟨1, "t", "b", 0, 1⟩], 2, 2⟩)
        ⟨[⟨1, "alice", false, none⟩], [⟨1, "t", "b", 0, 1⟩], 2, 2⟩).posts
      = [⟨1, "t", "b", 0, 1⟩]
    ∧ (stepState (patch_post_text 1 "c"
        ⟨[⟨1, "alice", false, none⟩], [⟨1, "t", "b", 0, 1⟩], 2, 2⟩)
        ⟨[⟨1, "alice", false, none⟩], [⟨1, "t", "b", 0, 1⟩], 2, 2⟩).users
      = [⟨1, "alice", false, none⟩] := by
  have h := patch_targets_single_field
    ⟨[⟨1, "alice", false, none⟩], [⟨1, "t", "b", 0, 1⟩], 2, 2⟩ 1 1 "bob" "c"
    ⟨1, "alice", false, none⟩ ⟨1, "t", "b", 0, 1⟩ rfl rfl
  exact ⟨h.2.1, h.2.2.2.2.2.2.2.1⟩

/-- C9: creating a user and then fetching by the id returned from creation
succeeds and yields exactly the submitted name, admin flag and avatar URL;
the id freshly assigned by the primary key is taken by no stored row. -/
theorem create_then_get_user (db : DBState) (body : UserCreate)
    (hfresh : ∀ v ∈ db.users, v.id ≠ db.nextUserId) :
    get_user (create_user body db).1.id (create_user body db).2
      = .ok ⟨db.nextUserId, body.name, body.is_admin, body.image_url⟩ := by
  have hnone : db.users.find? (fun v => v.id == db.nextUserId) = none := by
    rw [List.find?_eq_none]
    intro v hv
    simpa using hfresh v hv
  show get_user db.nextUserId
      { db with
        users := db.users ++ [⟨db.nextUserId, body.name, body.is_admin, body.image_url⟩],
        nextUserId := db.nextUserId + 1 }
    = .ok ⟨db.nextUserId, body.name, body.is_admin, body.image_url⟩
  simp only [get_user, findUser]
  rw [find?_append_of_none _ hnone]
  simp [toUser]

/-- Witness for C9: creating a user in the fresh store and reading back the
returned id yields the submitted field values. -/
theorem create_then_get_user_witness :
    get_user (create_user ⟨"alice", false, none⟩ initState).1.id
        (create_user ⟨"alice", false, none⟩ initState).2
      = .ok ⟨1, "alice", false, none⟩ :=
  create_then_get_user initState ⟨"alice", false, none⟩ (by simp [initState])

/-- C10: a full post update leaves every stored post's like count unchanged
(keyed by row id); the `PostCreate` request body carries no likes field and
the handler never writes the likes column, so like counts move only through
the increment and decrement handlers. -/
theorem update_post_preserves_likes (db : DBState) (pid : Nat) (b : PostCreate) :
    (stepState (update_post pid b db) db).posts.map (fun q => (q.id, q.likes))
      = db.posts.map (fun q => (q.id, q.likes)) := by
  cases h : findPost pid db <;> simp [update_post, stepState, h]

end SSproject
